import Mathlib

set_option maxRecDepth 40000

/-!
Verification of the license-token construction pipeline of
`AuthorizationServiceApi.js` (drm-quick-start).

The JavaScript handler is embedded shallowly:

* machine bytes are `Nat` values (< 256 where it matters);
* the AES-256 block permutation (`crypto`'s primitive), the HMAC-SHA-256
  tag function (`jsonwebtoken`'s primitive) and moment's `toISOString`
  rendering are library primitives, treated as explicit function
  parameters `E`, `mac` and `iso`; everything the repository itself
  strings together around them (CBC chaining, base64/base64url, hex and
  UUID parsing, JSON rendering, JWT assembly, the request state machine)
  is defined concretely below;
* the two `console.log` calls are modelled as an explicit log list;
* a thrown exception escaping the handler (Node's cipher `final()` with
  auto-padding disabled on a non-block-multiple input) is modelled as an
  `Except` error that the surrounding request turns into an
  internal-error response, matching express's default error handling.
-/

deriving instance DecidableEq for Except

namespace DrmQuickStart

/-! ## Base64 / base64url

`Buffer.prototype.toString("base64")` and the base64url encoding used by
`jws` (the serializer inside `jsonwebtoken`).  The token segments use the
URL alphabet with no padding, which is exactly what `jws` produces after
translating `+/` to `-_` and stripping `=`. -/

/-- The base64url alphabet, index 0–63. -/
def b64Chars : List Char :=
  "ABCDEFGHIJKLMNOPQRSTUVWXYZabcdefghijklmnopqrstuvwxyz0123456789-_".data

/-- Character for a six-bit group. -/
def sextetToChar (n : Nat) : Char := b64Chars.getD n 'A'

/-- Index of a character in a list, accumulator style. -/
def findIdxFrom : List Char → Char → Nat → Option Nat
  | [], _, _ => none
  | a :: rest, c, i => if a = c then some i else findIdxFrom rest c (i + 1)

/-- Six-bit value of an alphabet character. -/
def charToSextet (c : Char) : Option Nat := findIdxFrom b64Chars c 0

/-- Unpadded base64url encoding of a byte list (three bytes at a time). -/
def b64Encode : List Nat → List Char
  | [] => []
  | [a] => [sextetToChar (a / 4), sextetToChar (a % 4 * 16)]
  | [a, b] => [sextetToChar (a / 4), sextetToChar (a % 4 * 16 + b / 16),
      sextetToChar (b % 16 * 4)]
  | a :: b :: c :: rest =>
      sextetToChar (a / 4) :: sextetToChar (a % 4 * 16 + b / 16) ::
      sextetToChar (b % 16 * 4 + c / 64) :: sextetToChar (c % 64) :: b64Encode rest

/-- Unpadded base64url decoding (four characters at a time). -/
def b64Decode : List Char → Option (List Nat)
  | [] => some []
  | [c1, c2] =>
      match charToSextet c1, charToSextet c2 with
      | some s1, some s2 => some [s1 * 4 + s2 / 16]
      | _, _ => none
  | [c1, c2, c3] =>
      match charToSextet c1, charToSextet c2, charToSextet c3 with
      | some s1, some s2, some s3 =>
          some [s1 * 4 + s2 / 16, s2 % 16 * 16 + s3 / 4]
      | _, _, _ => none
  | c1 :: c2 :: c3 :: c4 :: rest =>
      match charToSextet c1, charToSextet c2, charToSextet c3,
          charToSextet c4, b64Decode rest with
      | some s1, some s2, some s3, some s4, some ds =>
          some ((s1 * 4 + s2 / 16) :: (s2 % 16 * 16 + s3 / 4) ::
            (s3 % 4 * 64 + s4) :: ds)
      | _, _, _, _, _ => none
  | _ => none

/-- A byte list rendered as a base64url string. -/
def b64url (bs : List Nat) : String := String.mk (b64Encode bs)

/-- The standard base64 alphabet, index 0–63 (`+` and `/` at 62/63). -/
def b64StdChars : List Char :=
  "ABCDEFGHIJKLMNOPQRSTUVWXYZabcdefghijklmnopqrstuvwxyz0123456789+/".data

/-- Character for a six-bit group, standard alphabet. -/
def sextetToStdChar (n : Nat) : Char := b64StdChars.getD n 'A'

/-- Padded standard base64 encoding, as `Buffer.prototype.toString("base64")`
produces: `+`/`/` at 62/63 and `=` padding up to a four-character group. -/
def b64StdEncode : List Nat → List Char
  | [] => []
  | [a] => [sextetToStdChar (a / 4), sextetToStdChar (a % 4 * 16), '=', '=']
  | [a, b] => [sextetToStdChar (a / 4), sextetToStdChar (a % 4 * 16 + b / 16),
      sextetToStdChar (b % 16 * 4), '=']
  | a :: b :: c :: rest =>
      sextetToStdChar (a / 4) :: sextetToStdChar (a % 4 * 16 + b / 16) ::
      sextetToStdChar (b % 16 * 4 + c / 64) :: sextetToStdChar (c % 64) ::
      b64StdEncode rest

/-- A byte list rendered as a padded standard base64 string
(`Buffer.from(...).toString("base64")`). -/
def b64std (bs : List Nat) : String := String.mk (b64StdEncode bs)

/-! ## Hex and UUID parsing -/

/-- Value of one hexadecimal digit. -/
def hexDigitVal (c : Char) : Option Nat :=
  if '0' ≤ c ∧ c ≤ '9' then some (c.toNat - 48)
  else if 'a' ≤ c ∧ c ≤ 'f' then some (c.toNat - 87)
  else if 'A' ≤ c ∧ c ≤ 'F' then some (c.toNat - 55)
  else none

/-- `Buffer.from(s, "hex")`: consume hex-digit pairs, stop at the first
character pair that is not two hex digits (Node stops decoding there). -/
def hexDecode : List Char → List Nat
  | c1 :: c2 :: rest =>
      match hexDigitVal c1, hexDigitVal c2 with
      | some hi, some lo => (hi * 16 + lo) :: hexDecode rest
      | _, _ => []
  | _ => []

/-- ASCII lowering, as `String.prototype.toLowerCase` does on ASCII. -/
def asciiToLower (c : Char) : Char :=
  if 'A' ≤ c ∧ c ≤ 'Z' then Char.ofNat (c.toNat + 32) else c

/-- The global scan `/[0-9a-f]{2}/g` of `node-uuid`'s `parse`: a pair of
hex digits yields a byte and consumes two characters; otherwise the scan
advances one character. -/
def uuidHexScan : List Char → List Nat
  | c1 :: c2 :: rest =>
      match hexDigitVal c1, hexDigitVal c2 with
      | some hi, some lo => (hi * 16 + lo) :: uuidHexScan rest
      | _, _ => uuidHexScan (c2 :: rest)
  | _ => []

/-- `uuid.parse`: lowercase the string, scan hex pairs, keep the first 16
bytes and zero-fill up to 16.  This is the big-endian 16-byte serialization
of the UUID, used by the handler as the CBC initialization vector. -/
def uuidParse (s : String) : List Nat :=
  let bs := (uuidHexScan (s.data.map asciiToLower)).take 16
  bs ++ List.replicate (16 - bs.length) 0

/-! ## The CBC-mode cipher (`crypto.createCipheriv("aes-256-cbc", …)` with
`setAutoPadding(false)`) -/

/-- Pointwise XOR of two byte lists. -/
def xorBytes (a b : List Nat) : List Nat := List.zipWith (fun x y => x ^^^ y) a b

/-- CBC chaining over a given number of 16-byte blocks: each ciphertext
block is the block permutation `E key` applied to the XOR of the next
plaintext block with the previous ciphertext block (initially the IV). -/
def cbcBlocksAux (E : List Nat → List Nat → List Nat) (key : List Nat) :
    Nat → List Nat → List Nat → List Nat
  | 0, _, _ => []
  | n + 1, prev, data =>
      let c := E key (xorBytes (data.take 16) prev)
      c ++ cbcBlocksAux E key n c (data.drop 16)

/-- CBC encryption of `data` (a whole number of 16-byte blocks) under
`key` with initialization vector `iv`. -/
def cbcEncrypt (E : List Nat → List Nat → List Nat)
    (key iv data : List Nat) : List Nat :=
  cbcBlocksAux E key (data.length / 16) iv data

/-! ## JSON values and `JSON.stringify`

The handler serializes plain object literals with `JSON.stringify`;
property order is insertion order.  Objects and arrays are mutual
inductives so that rendering is structural (and kernel-reducible). -/

mutual
inductive Json where
  | str : String → Json
  | num : Int → Json
  | obj : JFields → Json
  | arr : JElems → Json
inductive JFields where
  | nil : JFields
  | cons : String → Json → JFields → JFields
inductive JElems where
  | nil : JElems
  | cons : Json → JElems → JElems
end

deriving instance DecidableEq for Json
deriving instance DecidableEq for JFields
deriving instance DecidableEq for JElems

/-- Render a byte as two lowercase hex digits (for `\u00XX` escapes). -/
def hexByte (n : Nat) : String :=
  let d := fun m => List.getD "0123456789abcdef".data m '0'
  String.mk [d (n / 16 % 16), d (n % 16)]

/-- `JSON.stringify` string escaping. -/
def escChar (c : Char) : String :=
  if c = '"' then "\\\""
  else if c = '\\' then "\\\\"
  else if c = '\n' then "\\n"
  else if c = '\r' then "\\r"
  else if c = '\t' then "\\t"
  else if c.toNat = 8 then "\\b"
  else if c.toNat = 12 then "\\f"
  else if c.toNat < 32 then "\\u00" ++ hexByte c.toNat
  else String.singleton c

/-- A JSON string literal with quotes and escaping. -/
def quoteStr (s : String) : String :=
  "\"" ++ String.join (s.data.map escChar) ++ "\""

mutual
/-- `JSON.stringify` of a JSON value. -/
def Json.render : Json → String
  | .str s => quoteStr s
  | .num n => toString n
  | .obj fs => "\x7b" ++ JFields.render fs ++ "\x7d"
  | .arr es => "[" ++ JElems.render es ++ "]"
/-- Comma-joined `"key":value` pairs. -/
def JFields.render : JFields → String
  | .nil => ""
  | .cons k v .nil => quoteStr k ++ ":" ++ Json.render v
  | .cons k v (.cons k2 v2 rest) =>
      quoteStr k ++ ":" ++ Json.render v ++ "," ++
        JFields.render (JFields.cons k2 v2 rest)
/-- Comma-joined array elements. -/
def JElems.render : JElems → String
  | .nil => ""
  | .cons v .nil => Json.render v
  | .cons v (.cons v2 rest) =>
      Json.render v ++ "," ++ JElems.render (JElems.cons v2 rest)
end

/-- The property names of a JSON object's field list, in order. -/
def JFields.names : JFields → List String
  | .nil => []
  | .cons k _ rest => k :: JFields.names rest

/-- Concatenation of field lists (adding a property appends it). -/
def JFields.append : JFields → JFields → JFields
  | .nil, gs => gs
  | .cons k v rest, gs => .cons k v (JFields.append rest gs)

/-! ## Data model of the handler -/

/-- One content key from the video database: `keyId` is the UUID string,
`keyBytes` the decoded bytes of the base64 `key` field
(`Buffer.from(key.key, "base64")`). -/
structure ContentKey where
  keyId : String
  keyBytes : List Nat
deriving DecidableEq

/-- One entry of the entitlement message's `keys` list. -/
structure WrappedKey where
  id : String
  encrypted_key : String
deriving DecidableEq

/-- The inner entitlement message (its `type` is the constant
`"entitlement_message"`, added at serialization). -/
structure EntMessage where
  begin_date : String
  expiration_date : String
  keys : List WrappedKey
deriving DecidableEq

/-- The envelope that is signed (its `version` is the constant `1`). -/
structure Envelope where
  com_key_id : String
  message : EntMessage
  begin_date : String
  expiration_date : String
deriving DecidableEq

/-- Failure modes of `crypto.createCipheriv` + `update`/`final`:
`aes-256-cbc` rejects a key that is not 32 bytes, and `final()` with
auto-padding disabled throws when the input is not a whole number of
16-byte blocks (the spec's `MalformedKeyLength`). -/
inductive WrapError where
  | invalidKeyLength
  | malformedKeyLength
deriving DecidableEq

/-- The body of the `video.keys.forEach` callback: wrap one content key.
The IV is `uuid.parse(key.keyId)`, the cipher key is the communication
key, the ciphertext is rendered with
`encryptedKeyAsBuffer.toString("base64")` — padded standard base64 —
and the `id` field is the UUID string verbatim. -/
def wrapKey (E : List Nat → List Nat → List Nat) (commKey : List Nat)
    (k : ContentKey) : Except WrapError WrappedKey :=
  if commKey.length ≠ 32 then .error .invalidKeyLength
  else if k.keyBytes.length % 16 ≠ 0 then .error .malformedKeyLength
  else .ok { id := k.keyId,
             encrypted_key := b64std (cbcEncrypt E commKey (uuidParse k.keyId) k.keyBytes) }

/-- The whole `forEach` loop: a thrown error aborts the traversal, so no
list of wrapped keys is produced at all when any key fails. -/
def wrapAll (E : List Nat → List Nat → List Nat) (commKey : List Nat) :
    List ContentKey → Except WrapError (List WrappedKey)
  | [] => .ok []
  | k :: rest =>
      match wrapKey E commKey k with
      | .error e => .error e
      | .ok w =>
          match wrapAll E commKey rest with
          | .error e => .error e
          | .ok ws => .ok (w :: ws)

/-- `moment().subtract(1, "days")` / `.add(1, "days")` at epoch-millisecond
granularity: one day is this many milliseconds. -/
def oneDayMs : Int := 86400000

/-- The `message` object literal: validity window derived from a single
`now` with the hardcoded one-day tolerance, `keys` filled by the loop. -/
def buildMessage (iso : Int → String) (now : Int) (ws : List WrappedKey) :
    EntMessage :=
  { begin_date := iso (now - oneDayMs)
    expiration_date := iso (now + oneDayMs)
    keys := ws }

/-- The `envelope` object literal around the message. -/
def buildEnvelope (iso : Int → String) (now : Int) (comKeyId : String)
    (ws : List WrappedKey) : Envelope :=
  { com_key_id := comKeyId
    message := buildMessage iso now ws
    begin_date := iso (now - oneDayMs)
    expiration_date := iso (now + oneDayMs) }

/-! ## JSON views of the data model (property order = insertion order of
the object literals in the handler) -/

/-- JSON object pushed onto `message.keys`. -/
def WrappedKey.toJson (w : WrappedKey) : Json :=
  .obj (.cons "id" (.str w.id) (.cons "encrypted_key" (.str w.encrypted_key) .nil))

/-- JSON array elements for the wrapped-key list. -/
def keysToElems : List WrappedKey → JElems
  | [] => .nil
  | w :: rest => .cons w.toJson (keysToElems rest)

/-- JSON object for the entitlement message. -/
def EntMessage.toJson (m : EntMessage) : Json :=
  .obj (.cons "type" (.str "entitlement_message")
    (.cons "begin_date" (.str m.begin_date)
      (.cons "expiration_date" (.str m.expiration_date)
        (.cons "keys" (.arr (keysToElems m.keys)) .nil))))

/-- Field list of the envelope object literal. -/
def envelopeFields (e : Envelope) : JFields :=
  .cons "version" (.num 1)
    (.cons "com_key_id" (.str e.com_key_id)
      (.cons "message" e.message.toJson
        (.cons "begin_date" (.str e.begin_date)
          (.cons "expiration_date" (.str e.expiration_date) .nil))))

/-- JSON object for the envelope. -/
def Envelope.toJson (e : Envelope) : Json := .obj (envelopeFields e)

/-! ## `jwt.sign(envelope, communicationKey, { algorithm: "HS256" })`

`jsonwebtoken` copies the payload object, sets `payload.iat` to the
current epoch time in seconds (its documented default: generated tokens
include an `iat` claim unless `noTimestamp` is passed), and hands header
and payload to `jws`, which emits
`base64url(JSON(header)) . base64url(JSON(payload)) . base64url(HMAC)`. -/

/-- The JWS payload actually signed: the envelope's fields with the `iat`
claim appended by `jsonwebtoken`. -/
def jwtPayloadJson (e : Envelope) (iatSec : Int) : Json :=
  .obj (JFields.append (envelopeFields e)
    (.cons "iat" (.num iatSec) .nil))

/-- The protected header `JSON.stringify` output for HS256. -/
def jwtHeader : String :=
  Json.render (.obj (.cons "alg" (.str "HS256") (.cons "typ" (.str "JWT") .nil)))

/-- UTF-8 code units of a string (ASCII range; every character the
handler serializes is ASCII). -/
def strBytes (s : String) : List Nat := s.data.map Char.toNat

/-- The three base64url segments of the compact serialization. -/
def jwtSegments (mac : List Nat → List Nat → List Nat) (key : List Nat)
    (payload : Json) : String × String × String :=
  let h := b64url (strBytes jwtHeader)
  let p := b64url (strBytes payload.render)
  let s := b64url (mac key (strBytes (h ++ "." ++ p)))
  (h, p, s)

/-- The compact token: segments joined with dots. -/
def jwtSign (mac : List Nat → List Nat → List Nat) (key : List Nat)
    (payload : Json) : String :=
  let segs := jwtSegments mac key payload
  segs.1 ++ "." ++ segs.2.1 ++ "." ++ segs.2.2

/-! ## The request handler `processGet` -/

/-- A video-database entry: optional hardcoded license token, plus the
content keys. -/
structure Video where
  licenseToken : Option String
  keys : List ContentKey
deriving DecidableEq

/-- The secrets file contents: hex-encoded communication key and its
identifier. -/
structure SecretsData where
  communicationKey : String
  communicationKeyId : String
deriving DecidableEq

/-- One `console.log` emission. -/
inductive LogEvent where
  | log : String → LogEvent
deriving DecidableEq

/-- The response sent on a request: an error status with body, a JSON
body (`response.json`), or express's default handling of an exception
thrown inside the handler. -/
inductive Response where
  | status : Nat → String → Response
  | json : String → Response
  | internalError : WrapError → Response
deriving DecidableEq

/-- The `processGet` route handler.  `E` is the AES-256 block
permutation, `mac` the HMAC-SHA-256 tag function, `iso` moment's
`toISOString`, `db` the video database, `now` the current epoch time in
milliseconds.  Returns the response together with the `console.log`
events emitted, in order. -/
def processGet (E mac : List Nat → List Nat → List Nat)
    (iso : Int → String) (db : String → Option Video)
    (secretsAvailable : Bool) (secrets : SecretsData) (now : Int)
    (videoName : String) : Response × List LogEvent :=
  match db videoName with
  | none => (.status 400 "No such video", [])
  | some video =>
    match video.licenseToken with
    | some t => (.json t, [])
    | none =>
      if !secretsAvailable then
        (.status 500 "You must configure the secrets file to generate license tokens.",
         [.log "ERROR: You must configure the secrets file to generate license tokens."])
      else
        let commKey := hexDecode secrets.communicationKey.data
        match wrapAll E commKey video.keys with
        | .error e => (.internalError e, [])
        | .ok ws =>
          let envelope := buildEnvelope iso now secrets.communicationKeyId ws
          let token := jwtSign mac commKey (jwtPayloadJson envelope (Int.fdiv now 1000))
          (.json token,
           [.log ("Creating license token with payload: " ++ envelope.toJson.render)])

/-! ## Sample values used to instantiate theorems on concrete inputs -/

/-- A block permutation sample: constant 16-byte output. -/
def sampleE : List Nat → List Nat → List Nat := fun _ _ => List.replicate 16 0

/-- A MAC sample: constant two-byte tag. -/
def sampleMac : List Nat → List Nat → List Nat := fun _ _ => [0, 1]

/-- A timestamp-rendering sample. -/
def sampleIso : Int → String := fun i => toString i

/-- A 32-byte communication key. -/
def sampleCommKey : List Nat := List.replicate 32 1

/-- A well-formed content key: 16 zero bytes. -/
def sampleKey : ContentKey :=
  { keyId := "11111111-1111-1111-1111-111111111111", keyBytes := List.replicate 16 0 }

/-- A second well-formed content key: 32 bytes. -/
def sampleKey2 : ContentKey :=
  { keyId := "22222222-2222-2222-2222-222222222222", keyBytes := List.replicate 32 7 }

/-- A malformed content key: 15 bytes, not a block multiple. -/
def sampleBadKey : ContentKey :=
  { keyId := "33333333-3333-3333-3333-333333333333", keyBytes := List.replicate 15 5 }

/-- A secrets file whose hex communication key decodes to 32 bytes. -/
def sampleSecrets : SecretsData :=
  { communicationKey := String.mk (List.replicate 64 '1'), communicationKeyId := "cid" }

/-- A video with a hardcoded license token. -/
def tokenVideo : Video := { licenseToken := some "precomputed-token", keys := [sampleKey] }

/-- A video without a hardcoded token. -/
def freshVideo : Video := { licenseToken := none, keys := [sampleKey, sampleKey2] }

/-- A video carrying a malformed content key. -/
def badVideo : Video := { licenseToken := none, keys := [sampleKey, sampleBadKey] }

/-- A database holding the three sample videos. -/
def sampleDb : String → Option Video := fun n =>
  if n = "tok" then some tokenVideo
  else if n = "fresh" then some freshVideo
  else if n = "bad" then some badVideo
  else none

/-- A concrete envelope for evaluating the token pipeline. -/
def sampleEnv : Envelope :=
  { com_key_id := "c1"
    message := { begin_date := "B", expiration_date := "E", keys := [] }
    begin_date := "B"
    expiration_date := "E" }

/-- A second concrete envelope (one wrapped key). -/
def sampleEnv2 : Envelope :=
  { com_key_id := "c2"
    message := { begin_date := "B2", expiration_date := "E2",
                 keys := [{ id := "k", encrypted_key := "AAAA" }] }
    begin_date := "B2"
    expiration_date := "E2" }

/-- The wrapped forms of `freshVideo`'s two keys under `sampleE` and
`sampleCommKey`. -/
def sampleWrapped : List WrappedKey :=
  [{ id := sampleKey.keyId, encrypted_key := b64std (List.replicate 16 0) },
   { id := sampleKey2.keyId, encrypted_key := b64std (List.replicate 32 0) }]

/-- No character of a string is a dot. -/
def noDot (s : String) : Prop := ∀ c ∈ s.data, c ≠ '.'

/-! ## Helper lemmas -/

theorem b64Chars_length : b64Chars.length = 64 := by decide

theorem charToSextet_sextetToChar :
    ∀ i : Fin 64, charToSextet (sextetToChar i.val) = some i.val := by decide

theorem charToSextet_inv (s : Nat) (h : s < 64) :
    charToSextet (sextetToChar s) = some s :=
  charToSextet_sextetToChar ⟨s, h⟩

theorem sextetToChar_ne_dot_lt : ∀ i : Fin 64, sextetToChar i.val ≠ '.' := by decide

theorem sextetToChar_ne_dot (n : Nat) : sextetToChar n ≠ '.' := by
  by_cases h : n < 64
  · exact sextetToChar_ne_dot_lt ⟨n, h⟩
  · unfold sextetToChar
    rw [List.getD_eq_default _ _ (by rw [b64Chars_length]; omega)]
    decide

theorem b64Encode_ne_dot : ∀ (l : List Nat), ∀ c ∈ b64Encode l, c ≠ '.'
  | [] => by simp [b64Encode]
  | [a] => by
      intro x hx
      simp [b64Encode] at hx
      rcases hx with h | h <;> exact h ▸ sextetToChar_ne_dot _
  | [a, b] => by
      intro x hx
      simp [b64Encode] at hx
      rcases hx with h | h | h <;> exact h ▸ sextetToChar_ne_dot _
  | a :: b :: c :: rest => by
      intro x hx
      simp [b64Encode] at hx
      rcases hx with h | h | h | h | h
      · exact h ▸ sextetToChar_ne_dot _
      · exact h ▸ sextetToChar_ne_dot _
      · exact h ▸ sextetToChar_ne_dot _
      · exact h ▸ sextetToChar_ne_dot _
      · exact b64Encode_ne_dot rest x h

theorem b64_roundtrip : ∀ (l : List Nat), (∀ b ∈ l, b < 256) →
    b64Decode (b64Encode l) = some l
  | [], _ => by simp [b64Encode, b64Decode]
  | [a], h => by
      have ha : a < 256 := h a (by simp)
      simp [b64Encode, b64Decode,
        charToSextet_inv (a / 4) (by omega),
        charToSextet_inv (a % 4 * 16) (by omega)]
      omega
  | [a, b], h => by
      have ha : a < 256 := h a (by simp)
      have hb : b < 256 := h b (by simp)
      simp [b64Encode, b64Decode,
        charToSextet_inv (a / 4) (by omega),
        charToSextet_inv (a % 4 * 16 + b / 16) (by omega),
        charToSextet_inv (b % 16 * 4) (by omega)]
      omega
  | a :: b :: c :: rest, h => by
      have ha : a < 256 := h a (by simp)
      have hb : b < 256 := h b (by simp)
      have hc : c < 256 := h c (by simp)
      have hr := b64_roundtrip rest (fun x hx => h x (by simp [hx]))
      simp [b64Encode, b64Decode,
        charToSextet_inv (a / 4) (by omega),
        charToSextet_inv (a % 4 * 16 + b / 16) (by omega),
        charToSextet_inv (b % 16 * 4 + c / 64) (by omega),
        charToSextet_inv (c % 64) (by omega), hr]
      refine ⟨by omega, by omega, by omega⟩

theorem cbcBlocksAux_length (E : List Nat → List Nat → List Nat)
    (key : List Nat) (hE : ∀ kk b, (E kk b).length = 16) :
    ∀ (n : Nat) (prev data : List Nat),
      (cbcBlocksAux E key n prev data).length = 16 * n
  | 0, _, _ => by simp [cbcBlocksAux]
  | n + 1, prev, data => by
      simp [cbcBlocksAux, hE, cbcBlocksAux_length E key hE n]
      omega

theorem cbcEncrypt_length (E : List Nat → List Nat → List Nat)
    (key iv data : List Nat) (hE : ∀ kk b, (E kk b).length = 16)
    (hdata : data.length % 16 = 0) :
    (cbcEncrypt E key iv data).length = data.length := by
  simp [cbcEncrypt, cbcBlocksAux_length E key hE]
  omega

theorem uuidParse_length (s : String) : (uuidParse s).length = 16 := by
  simp [uuidParse]

theorem wrapAll_error_of_mem (E : List Nat → List Nat → List Nat)
    (ck : List Nat) (hck : ck.length = 32) :
    ∀ (keys : List ContentKey), (∃ k ∈ keys, k.keyBytes.length % 16 ≠ 0) →
      wrapAll E ck keys = .error .malformedKeyLength
  | [], h => by simp at h
  | k0 :: rest, h => by
      by_cases hk : k0.keyBytes.length % 16 = 0
      · obtain ⟨k, hkmem, hbad⟩ := h
        have hkr : k ∈ rest := by
          rcases List.mem_cons.mp hkmem with h | h
          · exact absurd hk (h ▸ hbad)
          · exact h
        have hr := wrapAll_error_of_mem E ck hck rest ⟨k, hkr, hbad⟩
        simp [wrapAll, wrapKey, hck, hk, hr]
      · simp [wrapAll, wrapKey, hck, hk]

theorem wrapAll_ok_spec (E : List Nat → List Nat → List Nat) (ck : List Nat) :
    ∀ (keys : List ContentKey) (ws : List WrappedKey),
      wrapAll E ck keys = .ok ws →
      ws.length = keys.length ∧
      ∀ i (hi : i < keys.length) (hi' : i < ws.length),
        wrapKey E ck (keys.get ⟨i, hi⟩) = .ok (ws.get ⟨i, hi'⟩)
  | [], ws, h => by
      simp [wrapAll] at h
      subst h
      exact ⟨rfl, fun i hi _ => absurd hi (by simp)⟩
  | k0 :: rest, ws, h => by
      cases hw : wrapKey E ck k0 with
      | error e => simp [wrapAll, hw] at h
      | ok w =>
        cases hr : wrapAll E ck rest with
        | error e => simp [wrapAll, hw, hr] at h
        | ok ws' =>
          have hws : ws = w :: ws' := by
            have := h
            simp [wrapAll, hw, hr] at this
            exact this.symm
          subst hws
          obtain ⟨hlen, hidx⟩ := wrapAll_ok_spec E ck rest ws' hr
          refine ⟨by simp [hlen], ?_⟩
          intro i hi hi'
          cases i with
          | zero => simpa using hw
          | succ j =>
            have hj : j < rest.length := by simpa using hi
            have hj' : j < ws'.length := by simpa using hi'
            simpa using hidx j hj hj'

/-! ## The claims -/

/-- C1: for every content key whose byte length is a whole multiple of
16, wrapping encrypts the raw key bytes with the block cipher in CBC
mode, no padding, keyed by the communication-key bytes, with the 16-byte
big-endian serialization of the key's UUID as the IV; the output's
`encrypted_key` is the base64 encoding of that ciphertext, whose length
equals the input key length, and its `id` is the key's UUID string. -/
theorem c1_key_wrapping (E : List Nat → List Nat → List Nat)
    (hE : ∀ kk b, (E kk b).length = 16)
    (commKey : List Nat) (hck : commKey.length = 32)
    (k : ContentKey) (hlen : k.keyBytes.length % 16 = 0) :
    wrapKey E commKey k =
      .ok { id := k.keyId,
            encrypted_key :=
              b64std (cbcEncrypt E commKey (uuidParse k.keyId) k.keyBytes) }
    ∧ (uuidParse k.keyId).length = 16
    ∧ (cbcEncrypt E commKey (uuidParse k.keyId) k.keyBytes).length
        = k.keyBytes.length := by
  refine ⟨?_, uuidParse_length _, cbcEncrypt_length E commKey _ _ hE hlen⟩
  simp [wrapKey, hck, hlen]

/-- Witness for C1 at the sample block permutation, communication key and
16-byte content key. -/
theorem c1_key_wrapping_witness :
    wrapKey sampleE sampleCommKey sampleKey =
      .ok { id := sampleKey.keyId,
            encrypted_key :=
              b64std (cbcEncrypt sampleE sampleCommKey (uuidParse sampleKey.keyId) sampleKey.keyBytes) }
    ∧ (uuidParse sampleKey.keyId).length = 16
    ∧ (cbcEncrypt sampleE sampleCommKey (uuidParse sampleKey.keyId) sampleKey.keyBytes).length
        = sampleKey.keyBytes.length :=
  c1_key_wrapping sampleE (fun _ _ => by simp [sampleE]) sampleCommKey (by decide)
    sampleKey (by decide)

/-- C2: a content key whose byte length is not a multiple of the 16-byte
block size makes wrapping fail with the `MalformedKeyLength` error, the
whole key-list traversal produces no wrapped-key list at all, and the
request ends in the internal-error response with no envelope emitted. -/
theorem c2_malformed_key_rejected (E mac : List Nat → List Nat → List Nat)
    (iso : Int → String) (db : String → Option Video)
    (secrets : SecretsData) (now : Int) (name : String)
    (video : Video) (ck : List Nat) (k : ContentKey)
    (hck : ck.length = 32)
    (hbad : k.keyBytes.length % 16 ≠ 0)
    (hmem : k ∈ video.keys)
    (hdb : db name = some video) (hlt : video.licenseToken = none)
    (hsec : hexDecode secrets.communicationKey.data = ck) :
    wrapKey E ck k = .error .malformedKeyLength
    ∧ wrapAll E ck video.keys = .error .malformedKeyLength
    ∧ processGet E mac iso db true secrets now name =
        (.internalError .malformedKeyLength, []) := by
  have h2 := wrapAll_error_of_mem E ck hck video.keys ⟨k, hmem, hbad⟩
  refine ⟨by simp [wrapKey, hck, hbad], h2, ?_⟩
  simp [processGet, hdb, hlt, hsec, h2]

/-- Witness for C2 at the sample database's video with a 15-byte key. -/
theorem c2_malformed_key_rejected_witness :
    wrapKey sampleE (hexDecode sampleSecrets.communicationKey.data) sampleBadKey
      = .error .malformedKeyLength
    ∧ wrapAll sampleE (hexDecode sampleSecrets.communicationKey.data) badVideo.keys
      = .error .malformedKeyLength
    ∧ processGet sampleE sampleMac sampleIso sampleDb true sampleSecrets 0 "bad" =
        (.internalError .malformedKeyLength, []) :=
  c2_malformed_key_rejected sampleE sampleMac sampleIso sampleDb sampleSecrets 0 "bad"
    badVideo (hexDecode sampleSecrets.communicationKey.data) sampleBadKey
    (by decide) (by decide) (by decide) (by decide) (by decide) rfl

/-- C3: the pipeline is deterministic — for a fixed communication key,
content-key list and `now`, two runs produce identical results, and the
wrapped-key list does not depend on `now` at all (the IV derives only
from the key identifier; no randomness enters the model). -/
theorem c3_deterministic_pipeline (E mac : List Nat → List Nat → List Nat)
    (iso : Int → String) (db : String → Option Video) (sav : Bool)
    (secrets : SecretsData) (now : Int) (name : String)
    (ck : List Nat) (keys : List ContentKey)
    (ws : List WrappedKey) (now₁ now₂ : Int) :
    processGet E mac iso db sav secrets now name
      = processGet E mac iso db sav secrets now name
    ∧ wrapAll E ck keys = wrapAll E ck keys
    ∧ (buildMessage iso now₁ ws).keys = (buildMessage iso now₂ ws).keys :=
  ⟨rfl, rfl, rfl⟩

/-- C4: when wrapping succeeds, the `keys` sequence of the built
entitlement message has the same length as the input list and its `i`-th
entry is the wrapped form of the `i`-th input content key. -/
theorem c4_order_preserved (E : List Nat → List Nat → List Nat)
    (ck : List Nat) (iso : Int → String) (now : Int)
    (keys : List ContentKey) (ws : List WrappedKey)
    (h : wrapAll E ck keys = .ok ws) :
    (buildMessage iso now ws).keys.length = keys.length
    ∧ ∀ i (hi : i < keys.length)
        (hi' : i < (buildMessage iso now ws).keys.length),
        wrapKey E ck (keys.get ⟨i, hi⟩)
          = .ok ((buildMessage iso now ws).keys.get ⟨i, hi'⟩) :=
  wrapAll_ok_spec E ck keys ws h

/-- Witness for C4 at a two-key input list. -/
theorem c4_order_preserved_witness :
    (buildMessage sampleIso 0 sampleWrapped).keys.length = freshVideo.keys.length
    ∧ ∀ i (hi : i < freshVideo.keys.length)
        (hi' : i < (buildMessage sampleIso 0 sampleWrapped).keys.length),
        wrapKey sampleE sampleCommKey (freshVideo.keys.get ⟨i, hi⟩)
          = .ok ((buildMessage sampleIso 0 sampleWrapped).keys.get ⟨i, hi'⟩) :=
  c4_order_preserved sampleE sampleCommKey sampleIso 0 freshVideo.keys sampleWrapped
    (by decide)

/-- C5: the validity window of a built envelope is
`[now - tolerance, now + tolerance]` computed from a single `now`, and
the window carried in the inner entitlement message equals, byte for
byte, the window carried at the envelope level. -/
theorem c5_validity_window_equal (iso : Int → String) (now : Int)
    (cid : String) (ws : List WrappedKey) :
    (buildEnvelope iso now cid ws).message.begin_date
      = (buildEnvelope iso now cid ws).begin_date
    ∧ (buildEnvelope iso now cid ws).message.expiration_date
      = (buildEnvelope iso now cid ws).expiration_date
    ∧ (buildEnvelope iso now cid ws).begin_date = iso (now - oneDayMs)
    ∧ (buildEnvelope iso now cid ws).expiration_date = iso (now + oneDayMs) :=
  ⟨rfl, rfl, rfl, rfl⟩

/-- C6: a catalog entry carrying a precomputed license token is returned
exactly and immediately: for every secrets state, block permutation and
MAC, the response is that token, and nothing is logged (no secrets
check, wrapping, envelope construction or signing happens). -/
theorem c6_precomputed_token_short_circuit
    (E mac : List Nat → List Nat → List Nat) (iso : Int → String)
    (db : String → Option Video) (sav : Bool) (secrets : SecretsData)
    (now : Int) (name : String) (video : Video) (t : String)
    (hdb : db name = some video) (ht : video.licenseToken = some t) :
    processGet E mac iso db sav secrets now name = (.json t, []) := by
  simp [processGet, hdb, ht]

/-- Witness for C6: the sample video with a hardcoded token, with secrets
unavailable and empty. -/
theorem c6_precomputed_token_short_circuit_witness :
    processGet sampleE sampleMac sampleIso sampleDb false ⟨"", ""⟩ 0 "tok"
      = (.json "precomputed-token", []) :=
  c6_precomputed_token_short_circuit sampleE sampleMac sampleIso sampleDb false
    ⟨"", ""⟩ 0 "tok" tokenVideo "precomputed-token" (by decide) rfl

/-- C7: for a valid asset without a precomputed token, unavailable
secrets terminate the request with the server-error response (and its
log line), for every block permutation and key list — wrapping and
signing are never attempted. -/
theorem c7_secrets_gate (E mac : List Nat → List Nat → List Nat)
    (iso : Int → String) (db : String → Option Video)
    (secrets : SecretsData) (now : Int) (name : String) (video : Video)
    (hdb : db name = some video) (ht : video.licenseToken = none) :
    processGet E mac iso db false secrets now name =
      (.status 500 "You must configure the secrets file to generate license tokens.",
       [.log "ERROR: You must configure the secrets file to generate license tokens."]) := by
  simp [processGet, hdb, ht]

/-- Witness for C7 at the sample fresh video. -/
theorem c7_secrets_gate_witness :
    processGet sampleE sampleMac sampleIso sampleDb false sampleSecrets 0 "fresh" =
      (.status 500 "You must configure the secrets file to generate license tokens.",
       [.log "ERROR: You must configure the secrets file to generate license tokens."]) :=
  c7_secrets_gate sampleE sampleMac sampleIso sampleDb sampleSecrets 0 "fresh"
    freshVideo (by decide) rfl

/-- C8 (amended): a fresh token is three dot-joined base64url segments;
the payload segment decodes to the JSON envelope serialization with the
fields `version` (= 1), `com_key_id`, `message` (`type`, `begin_date`,
`expiration_date`, `keys[].id`, `keys[].encrypted_key`), `begin_date`
and `expiration_date` — plus one extra `iat` field that `jsonwebtoken`
appends by default before signing. -/
theorem c8_token_wire_format (mac : List Nat → List Nat → List Nat)
    (key : List Nat) (e : Envelope) (iatSec : Int)
    (hascii : ∀ c ∈ (Json.render (jwtPayloadJson e iatSec)).data, c.toNat < 256) :
    jwtSign mac key (jwtPayloadJson e iatSec)
      = (jwtSegments mac key (jwtPayloadJson e iatSec)).1 ++ "." ++
        (jwtSegments mac key (jwtPayloadJson e iatSec)).2.1 ++ "." ++
        (jwtSegments mac key (jwtPayloadJson e iatSec)).2.2
    ∧ noDot (jwtSegments mac key (jwtPayloadJson e iatSec)).1
    ∧ noDot (jwtSegments mac key (jwtPayloadJson e iatSec)).2.1
    ∧ noDot (jwtSegments mac key (jwtPayloadJson e iatSec)).2.2
    ∧ b64Decode ((jwtSegments mac key (jwtPayloadJson e iatSec)).2.1).data
      = some (strBytes (Json.render (jwtPayloadJson e iatSec)))
    ∧ jwtPayloadJson e iatSec =
        Json.obj (.cons "version" (.num 1)
          (.cons "com_key_id" (.str e.com_key_id)
            (.cons "message" e.message.toJson
              (.cons "begin_date" (.str e.begin_date)
                (.cons "expiration_date" (.str e.expiration_date)
                  (.cons "iat" (.num iatSec) .nil))))))
    ∧ e.message.toJson =
        Json.obj (.cons "type" (.str "entitlement_message")
          (.cons "begin_date" (.str e.message.begin_date)
            (.cons "expiration_date" (.str e.message.expiration_date)
              (.cons "keys" (.arr (keysToElems e.message.keys)) .nil))))
    ∧ ∀ w : WrappedKey, w.toJson =
        Json.obj (.cons "id" (.str w.id)
          (.cons "encrypted_key" (.str w.encrypted_key) .nil)) := by
  have hbytes : ∀ b ∈ strBytes (Json.render (jwtPayloadJson e iatSec)), b < 256 := by
    intro b hb
    obtain ⟨c, hc, hcb⟩ := List.mem_map.mp hb
    exact hcb ▸ hascii c hc
  refine ⟨rfl, ?_, ?_, ?_, ?_, rfl, rfl, fun w => rfl⟩
  · exact fun c hc => b64Encode_ne_dot _ c hc
  · exact fun c hc => b64Encode_ne_dot _ c hc
  · exact fun c hc => b64Encode_ne_dot _ c hc
  · exact b64_roundtrip _ hbytes

/-- Witness for C8 at the sample envelope with one wrapped key. -/
theorem c8_token_wire_format_witness :
    jwtSign sampleMac sampleCommKey (jwtPayloadJson sampleEnv2 0)
      = (jwtSegments sampleMac sampleCommKey (jwtPayloadJson sampleEnv2 0)).1 ++ "." ++
        (jwtSegments sampleMac sampleCommKey (jwtPayloadJson sampleEnv2 0)).2.1 ++ "." ++
        (jwtSegments sampleMac sampleCommKey (jwtPayloadJson sampleEnv2 0)).2.2
    ∧ noDot (jwtSegments sampleMac sampleCommKey (jwtPayloadJson sampleEnv2 0)).1
    ∧ noDot (jwtSegments sampleMac sampleCommKey (jwtPayloadJson sampleEnv2 0)).2.1
    ∧ noDot (jwtSegments sampleMac sampleCommKey (jwtPayloadJson sampleEnv2 0)).2.2
    ∧ b64Decode ((jwtSegments sampleMac sampleCommKey (jwtPayloadJson sampleEnv2 0)).2.1).data
      = some (strBytes (Json.render (jwtPayloadJson sampleEnv2 0)))
    ∧ jwtPayloadJson sampleEnv2 0 =
        Json.obj (.cons "version" (.num 1)
          (.cons "com_key_id" (.str sampleEnv2.com_key_id)
            (.cons "message" sampleEnv2.message.toJson
              (.cons "begin_date" (.str sampleEnv2.begin_date)
                (.cons "expiration_date" (.str sampleEnv2.expiration_date)
                  (.cons "iat" (.num 0) .nil))))))
    ∧ sampleEnv2.message.toJson =
        Json.obj (.cons "type" (.str "entitlement_message")
          (.cons "begin_date" (.str sampleEnv2.message.begin_date)
            (.cons "expiration_date" (.str sampleEnv2.message.expiration_date)
              (.cons "keys" (.arr (keysToElems sampleEnv2.message.keys)) .nil))))
    ∧ ∀ w : WrappedKey, w.toJson =
        Json.obj (.cons "id" (.str w.id)
          (.cons "encrypted_key" (.str w.encrypted_key) .nil)) :=
  c8_token_wire_format sampleMac sampleCommKey sampleEnv2 0 (by decide)

/-- C8 counterexample to the claim as stated: the payload segment of a
concretely signed token decodes to a JSON object whose field list is not
exactly `version, com_key_id, message, begin_date, expiration_date` —
`jsonwebtoken` has appended `iat`. -/
theorem c8_payload_has_extra_field :
    b64Decode ((jwtSegments sampleMac sampleCommKey (jwtPayloadJson sampleEnv 0)).2.1).data
      = some (strBytes (Json.render (jwtPayloadJson sampleEnv 0)))
    ∧ (JFields.append (envelopeFields sampleEnv)
        (.cons "iat" (.num 0) .nil)).names
      ≠ ["version", "com_key_id", "message", "begin_date", "expiration_date"]
    ∧ b64Decode ((jwtSegments sampleMac sampleCommKey (jwtPayloadJson sampleEnv 0)).2.1).data
      ≠ some (strBytes (Json.render sampleEnv.toJson)) := by
  refine ⟨by decide, by decide, by decide⟩

/-- C9 (amended): decoding the payload segment of the signed token
reproduces the serialized envelope fields exactly, except that signing
appends one `iat` field (nothing else is added and nothing is removed):
the decoded payload is the serialization of the envelope's field list
with `iat` appended. -/
theorem c9_payload_roundtrip (mac : List Nat → List Nat → List Nat)
    (key : List Nat) (e : Envelope) (iatSec : Int)
    (hascii : ∀ c ∈ (Json.render (jwtPayloadJson e iatSec)).data, c.toNat < 256) :
    b64Decode ((jwtSegments mac key (jwtPayloadJson e iatSec)).2.1).data
      = some (strBytes (Json.render (jwtPayloadJson e iatSec)))
    ∧ jwtPayloadJson e iatSec
      = Json.obj (JFields.append (envelopeFields e) (.cons "iat" (.num iatSec) .nil))
    ∧ (JFields.append (envelopeFields e) (.cons "iat" (.num iatSec) .nil)).names
      = (envelopeFields e).names ++ ["iat"] := by
  have hbytes : ∀ b ∈ strBytes (Json.render (jwtPayloadJson e iatSec)), b < 256 := by
    intro b hb
    obtain ⟨c, hc, hcb⟩ := List.mem_map.mp hb
    exact hcb ▸ hascii c hc
  exact ⟨b64_roundtrip _ hbytes, rfl, rfl⟩

/-- Witness for C9 at the empty-keys sample envelope. -/
theorem c9_payload_roundtrip_witness :
    b64Decode ((jwtSegments sampleMac sampleCommKey (jwtPayloadJson sampleEnv 7)).2.1).data
      = some (strBytes (Json.render (jwtPayloadJson sampleEnv 7)))
    ∧ jwtPayloadJson sampleEnv 7
      = Json.obj (JFields.append (envelopeFields sampleEnv) (.cons "iat" (.num 7) .nil))
    ∧ (JFields.append (envelopeFields sampleEnv) (.cons "iat" (.num 7) .nil)).names
      = (envelopeFields sampleEnv).names ++ ["iat"] :=
  c9_payload_roundtrip sampleMac sampleCommKey sampleEnv 7 (by decide)

/-- C9 counterexample to the claim as stated: for a concrete envelope,
decoding the signed token's payload segment does not reproduce the
original envelope serialization — the signer has added `iat`. -/
theorem c9_payload_not_envelope :
    b64Decode ((jwtSegments sampleMac sampleCommKey (jwtPayloadJson sampleEnv2 0)).2.1).data
      ≠ some (strBytes (Json.render sampleEnv2.toJson)) := by
  decide

/-- C10: the clock-drift tolerance is the hardcoded constant of one day;
every built envelope's validity window is exactly
`[now - 24 hours, now + 24 hours]`, at message and envelope level. -/
theorem c10_fixed_one_day_window (iso : Int → String) (now : Int)
    (cid : String) (ws : List WrappedKey) :
    oneDayMs = 24 * 60 * 60 * 1000
    ∧ (buildEnvelope iso now cid ws).begin_date = iso (now - 24 * 60 * 60 * 1000)
    ∧ (buildEnvelope iso now cid ws).expiration_date = iso (now + 24 * 60 * 60 * 1000)
    ∧ (buildEnvelope iso now cid ws).message.begin_date = iso (now - 24 * 60 * 60 * 1000)
    ∧ (buildEnvelope iso now cid ws).message.expiration_date = iso (now + 24 * 60 * 60 * 1000) := by
  have h : oneDayMs = 24 * 60 * 60 * 1000 := by decide
  exact ⟨h, by rw [buildEnvelope, h], by rw [buildEnvelope, h],
    by rw [buildEnvelope, buildMessage, h], by rw [buildEnvelope, buildMessage, h]⟩

end DrmQuickStart
